import Mathlib

/-!
Shallow embedding of the segment-generation and audio-assembly pipeline of
the multi-speaker TTS application (src/main.py), together with theorems
settling the specification claims about it.

External collaborators (the synthesis provider, the persistence layer and
the file system) are modelled as explicit oracle parameters; the control
flow of each embedded function mirrors the corresponding Python function
line by line.
-/

namespace ProjectZero

/-- Usage cap on cloned voices per user (src/main.py line 36). -/
def MAX_VOICES_PER_USER : Nat := 1

/-- Usage cap on TTS generations per user (src/main.py line 37). -/
def MAX_GENERATIONS_PER_USER : Nat := 5

/-- A script segment as built by create_new_segment and mutated by the
editor: a dict with keys id, text, voice_id, voice_label.  voice_id is
Optional[str] (None is unset). -/
structure Segment where
  id : String
  text : String
  voice_id : Option String
  voice_label : String
deriving DecidableEq

/-- Python str.strip() on the character list of a string: drop whitespace
from the front, then from the back. -/
def stripChars (l : List Char) : List Char :=
  ((l.dropWhile Char.isWhitespace).reverse.dropWhile Char.isWhitespace).reverse

/-- Python str.strip() as used by validate_segments. -/
def pyStrip (s : String) : String := String.mk (stripChars s.data)

/-- The falsiness test Python applies to seg.get("voice_id"): both None
and the empty string are falsy. -/
def voiceIdFalsy : Option String → Bool
  | none => true
  | some v => v = ""

/-- The per-segment invalidity test from validate_segments (line 444):
not seg.get("text", "").strip() or not seg.get("voice_id"). -/
def segmentInvalid (s : Segment) : Bool :=
  pyStrip s.text = "" || voiceIdFalsy s.voice_id

/-- The enumerate loop of validate_segments, carrying the 0-based index. -/
def validateAux : Nat → List Segment → List Nat
  | _, [] => []
  | i, s :: rest =>
    if segmentInvalid s then (i + 1) :: validateAux (i + 1) rest
    else validateAux (i + 1) rest

/-- validate_segments (src/main.py lines 440-446): scans the whole
segment list and collects the 1-based indices of invalid segments. -/
def validate_segments (segs : List Segment) : List Nat :=
  validateAux 0 segs

/-- Outcome of check_generation_limit, keeping the two deny branches
distinct since they print distinct error messages (lines 453-459). -/
inductive QuotaDecision where
  | allow
  | denyLimitReached
  | denyBatchExceeds
deriving DecidableEq

/-- check_generation_limit (src/main.py lines 448-461): remaining is the
cap minus the user's current generation count (Python int arithmetic,
hence over Int), denying first when remaining <= 0 and then when the
batch size exceeds remaining. -/
def check_generation_limit (currentCount numSegments : Nat) : QuotaDecision :=
  let remaining : Int := (MAX_GENERATIONS_PER_USER : Int) - (currentCount : Int)
  if remaining ≤ 0 then .denyLimitReached
  else if (numSegments : Int) > remaining then .denyBatchExceeds
  else .allow

/-- Oracle outcome of one call to the synthesis provider wrapper
(ElevenLabsManager.convert_and_save_text_to_speech): either the call
raises, or it returns a path string together with whether that path
exists on disk (the os.path.exists test of line 473). -/
inductive SynthResult where
  | raises (msg : String)
  | returns (path : String) (pathExists : Bool)
deriving DecidableEq

/-- generate_single_segment (src/main.py lines 463-479): on a truthy,
existing output path it records the generation (the record write's
boolean result is discarded by the source) and returns the path; on a
falsy or missing path it returns None; a raised exception is re-raised
to the caller. -/
def generate_single_segment (r : SynthResult) : Except String (Option String) :=
  match r with
  | .raises m => .error m
  | .returns path ex =>
      if path ≠ "" ∧ ex = true then .ok (some path) else .ok none

/-- The clip (if any) that one segment contributes to the success list. -/
def clipOf (r : SynthResult) : Option String :=
  match generate_single_segment r with
  | .ok (some p) => some p
  | .ok none => none
  | .error _ => none

/-- The error entry (if any) that the segment at 0-based index i
contributes to the error list, with the messages of lines 501 and 503. -/
def errOf (i : Nat) (r : SynthResult) : Option String :=
  match generate_single_segment r with
  | .ok (some _) => none
  | .ok none => some ("Segment " ++ toString (i + 1) ++ ": Generation failed")
  | .error m => some ("Segment " ++ toString (i + 1) ++ ": " ++ m)

/-- The enumerate loop of generate_all_segments (lines 492-503), carrying
the 0-based segment index. -/
def genLoop (synth : Nat → SynthResult) : Nat → List Segment → List String × List String
  | _, [] => ([], [])
  | i, _ :: rest =>
    let res := genLoop synth (i + 1) rest
    match generate_single_segment (synth i) with
    | .ok (some p) => (p :: res.1, res.2)
    | .ok none =>
        (res.1, ("Segment " ++ toString (i + 1) ++ ": Generation failed") :: res.2)
    | .error m =>
        (res.1, ("Segment " ++ toString (i + 1) ++ ": " ++ m) :: res.2)

/-- generate_all_segments (src/main.py lines 481-505): short-circuits
when the quota check denies, otherwise runs the per-segment loop; the
provider is the oracle synth, indexed by segment position. -/
def generate_all_segments (synth : Nat → SynthResult) (currentCount : Nat)
    (segs : List Segment) : List String × List String :=
  if check_generation_limit currentCount segs.length = QuotaDecision.allow then
    genLoop synth 0 segs
  else
    ([], ["Generation limit exceeded"])

/-- An audio clip, one abstract sample per millisecond, so that a list's
length is its duration in milliseconds. -/
abbrev AudioClip := List Int

/-- AudioSegment.silent(duration=300), the 300ms gap of line 518. -/
def silence300 : AudioClip := List.replicate 300 0

/-- The accumulator loop of merge_audio_files (lines 512-519): the first
clip initialises the accumulator, every later clip is appended behind a
300ms silence.  load is the AudioSegment.from_file oracle. -/
def mergeFold (load : String → AudioClip) :
    Option AudioClip → List String → Option AudioClip
  | combined, [] => combined
  | combined, path :: rest =>
    match combined with
    | none => mergeFold load (some (load path)) rest
    | some c => mergeFold load (some (c ++ silence300 ++ load path)) rest

/-- merge_audio_files (src/main.py lines 507-525): folds the clip list
into one stream; a none result means the accumulator stayed None and the
final export line raises. -/
def merge_audio_files (load : String → AudioClip) (file_paths : List String) :
    Option AudioClip :=
  mergeFold load none file_paths

/-- Outcome of the Generate and Merge button handler. -/
inductive MergeOutcome where
  | noFiles
  | merged (path : String)
  | zipped (path : String)
  | zipFailed (msg : String)
deriving DecidableEq

/-- The ZIP branch of the handler (lines 884-897): success or the fatal
error message. -/
def zipFallback : Except String String → MergeOutcome
  | .ok p => .zipped p
  | .error m => .zipFailed m

/-- The Generate and Merge branch of render_generation_controls
(src/main.py lines 862-897) after generation: with the generated list,
the PYDUB_AVAILABLE flag and the outcomes of the merge and ZIP attempts
as oracles, it returns what is reported to the user together with
whether merge_audio_files was invoked at all. -/
def handle_generate_merge (generated : List String) (pydubAvailable : Bool)
    (mergeResult : Except String String) (zipResult : Except String String) :
    MergeOutcome × Bool :=
  if generated.isEmpty then (.noFiles, false)
  else if pydubAvailable then
    match mergeResult with
    | .ok p => (.merged p, true)
    | .error _ => (zipFallback zipResult, true)
  else (zipFallback zipResult, false)

/-- The suffix of a character list after its last slash, i.e.
os.path.basename for the paths this app builds. -/
def basenameChars : List Char → List Char
  | [] => []
  | c :: rest =>
    if ('/') ∈ rest then basenameChars rest
    else if c = '/' then rest
    else c :: rest

/-- os.path.basename on a string. -/
def basename (s : String) : String := String.mk (basenameChars s.data)

/-- create_zip_archive (src/main.py lines 527-536), modelled by the list
of entry names it writes: one entry per input path, under
arcname=os.path.basename(file_path). -/
def create_zip_archive (file_paths : List String) : List String :=
  file_paths.map basename

/-- Observable trace of one run of handle_voice_cloning: the returned
boolean, whether the uploaded sample was written to disk, how many times
the provider voice-creation endpoint was called, and the arguments of
every call to delete_voice_from_elevenlabs. -/
structure CloneTrace where
  result : Bool
  sampleSaved : Bool
  providerCalls : Nat
  deleteCalls : List String
deriving DecidableEq

/-- handle_voice_cloning (src/main.py lines 388-434) with its
collaborators as oracles: the user's current voice count, whether saving
the uploaded sample succeeds, the string returned by
ElevenLabsManager.create_instant_voice_clone (which returns the sentinel
"Failed to create voice" instead of raising), and whether save_user_voice
succeeds.  The source tests the returned id for truthiness and against
the sentinel (line 419), and on a database-save failure compensates by
deleting the just-created provider voice (line 427). -/
def handle_voice_cloning (voiceCount : Nat) (fileSaveOk : Bool)
    (providerReturn : String) (dbSaveOk : Bool) : CloneTrace :=
  if voiceCount ≥ MAX_VOICES_PER_USER then
    ⟨false, false, 0, []⟩
  else if fileSaveOk = false then
    ⟨false, false, 0, []⟩
  else if providerReturn ≠ "" ∧ providerReturn ≠ "Failed to create voice" then
    if dbSaveOk then ⟨true, true, 1, []⟩
    else ⟨false, true, 1, [providerReturn]⟩
  else ⟨false, true, 1, []⟩

/-! ### Theorems about validate_segments (claim C1) -/

/-- validateAux started at index i lists the (i + ordinal)-th 1-based
positions of the invalid segments, via enumFrom. -/
theorem validateAux_eq_enumFrom (segs : List Segment) :
    ∀ i, validateAux i segs
      = ((segs.enumFrom i).filter (fun p => segmentInvalid p.2)).map
          (fun p => p.1 + 1) := by
  induction segs with
  | nil => intro i; simp [validateAux]
  | cons s rest ih =>
    intro i
    simp only [validateAux, List.enumFrom_cons, List.filter_cons]
    by_cases h : segmentInvalid s
    · simp [h, ih (i + 1)]
    · simp [h, ih (i + 1)]

/-- Every index reported by validateAux started at i exceeds i. -/
theorem validateAux_gt (segs : List Segment) :
    ∀ i j, j ∈ validateAux i segs → i < j := by
  induction segs with
  | nil => intro i j h; simp [validateAux] at h
  | cons s rest ih =>
    intro i j h
    simp only [validateAux] at h
    by_cases hs : segmentInvalid s
    · simp [hs] at h
      rcases h with h | h
      · omega
      · have := ih (i + 1) j h; omega
    · simp [hs] at h
      have := ih (i + 1) j h; omega

/-- validateAux output is strictly increasing. -/
theorem validateAux_pairwise (segs : List Segment) :
    ∀ i, List.Pairwise (fun a b => a < b) (validateAux i segs) := by
  induction segs with
  | nil => intro i; simp [validateAux]
  | cons s rest ih =>
    intro i
    simp only [validateAux]
    by_cases hs : segmentInvalid s
    · simp only [hs, if_true]
      exact List.Pairwise.cons
        (fun j hj => validateAux_gt rest (i + 1) j hj) (ih (i + 1))
    · simp only [hs, if_false]
      exact ih (i + 1)

/-- validateAux is empty iff every segment is valid. -/
theorem validateAux_eq_nil_iff (segs : List Segment) :
    ∀ i, validateAux i segs = [] ↔ ∀ s ∈ segs, segmentInvalid s = false := by
  induction segs with
  | nil => intro i; simp [validateAux]
  | cons s rest ih =>
    intro i
    simp only [validateAux]
    by_cases hs : segmentInvalid s
    · simp [hs]
    · rw [if_neg hs, ih (i + 1)]
      constructor
      · intro hall t ht
        rcases List.mem_cons.1 ht with rfl | ht
        · exact Bool.eq_false_iff.2 hs
        · exact hall t ht
      · intro hall t ht
        exact hall t (List.mem_cons_of_mem s ht)

/-- Claim C1 (amended): validate_segments returns exactly the 1-based positions,
in ascending order, of the segments whose stripped text is empty or whose
voice_id is Python-falsy (None or the empty string); the result is empty
iff every segment passes that test. -/
theorem validate_segments_spec (segs : List Segment) :
    validate_segments segs
      = ((segs.enum.filter (fun p => segmentInvalid p.2)).map
          (fun p => p.1 + 1))
    ∧ List.Pairwise (fun a b => a < b) (validate_segments segs)
    ∧ (validate_segments segs = [] ↔ ∀ s ∈ segs, segmentInvalid s = false) := by
  refine ⟨?_, ?_, ?_⟩
  · simpa [List.enum] using validateAux_eq_enumFrom segs 0
  · exact validateAux_pairwise segs 0
  · exact validateAux_eq_nil_iff segs 0

/-- Claim C1 counterexample to the claim as stated: a segment with non-blank
text and voice_id set (to the empty string) is nevertheless reported
invalid by validate_segments, because Python tests voice_id for
falsiness, not for being unset. -/
theorem validate_segments_claim_counterexample :
    validate_segments [⟨"s1", "x", some "", "Voice"⟩] = [1]
      ∧ pyStrip "x" ≠ ""
      ∧ (some "" : Option String) ≠ none := by
  refine ⟨rfl, by decide, by decide⟩

/-! ### Theorems about check_generation_limit (claim C2) -/

/-- Claim C2: with remaining = cap - currentCount, the quota check denies with
the distinct reason "limit already reached" whenever remaining <= 0
(regardless of the requested count), denies with the distinct reason
"batch exceeds remaining allowance" whenever remaining is positive but
the requested count exceeds it, and allows whenever currentCount is below
the cap and the requested count is at most remaining. -/
theorem check_generation_limit_spec (c r : Nat) :
    ((MAX_GENERATIONS_PER_USER : Int) - (c : Int) ≤ 0 →
      check_generation_limit c r = QuotaDecision.denyLimitReached)
    ∧ (0 < (MAX_GENERATIONS_PER_USER : Int) - (c : Int) →
        (r : Int) > (MAX_GENERATIONS_PER_USER : Int) - (c : Int) →
        check_generation_limit c r = QuotaDecision.denyBatchExceeds)
    ∧ (c < MAX_GENERATIONS_PER_USER →
        (r : Int) ≤ (MAX_GENERATIONS_PER_USER : Int) - (c : Int) →
        check_generation_limit c r = QuotaDecision.allow) := by
  refine ⟨?_, ?_, ?_⟩ <;> intro h
  · simp only [check_generation_limit, if_pos h]
  · intro hr
    have hn : ¬ ((MAX_GENERATIONS_PER_USER : Int) - (c : Int) ≤ 0) := by omega
    simp only [check_generation_limit, if_neg hn, if_pos hr]
  · intro hr
    have hn : ¬ ((MAX_GENERATIONS_PER_USER : Int) - (c : Int) ≤ 0) := by
      simp only [MAX_GENERATIONS_PER_USER] at h ⊢; omega
    have hg : ¬ ((r : Int) > (MAX_GENERATIONS_PER_USER : Int) - (c : Int)) := by
      omega
    simp only [check_generation_limit, if_neg hn, if_neg hg]

/-- Witness for C2: the quota check evaluated on concrete counts hits all
three branches as the theorem predicts. -/
theorem check_generation_limit_spec_witness :
    check_generation_limit 5 1 = QuotaDecision.denyLimitReached
    ∧ check_generation_limit 3 4 = QuotaDecision.denyBatchExceeds
    ∧ check_generation_limit 3 2 = QuotaDecision.allow :=
  ⟨(check_generation_limit_spec 5 1).1 (by decide),
   (check_generation_limit_spec 3 4).2.1 (by decide) (by decide),
   (check_generation_limit_spec 3 2).2.2 (by decide) (by decide)⟩

/-! ### Theorems about generate_all_segments (claims C3 and C8) -/

/-- filterMap respects pointwise equality on the list's members. -/
theorem filterMapCongr {α β : Type} {f g : α → Option β} :
    ∀ {l : List α}, (∀ a ∈ l, f a = g a) → l.filterMap f = l.filterMap g := by
  intro l
  induction l with
  | nil => intro _; rfl
  | cons a t ih =>
    intro h
    rw [List.filterMap_cons, List.filterMap_cons, h a (List.mem_cons_self a t),
      ih (fun b hb => h b (List.mem_cons_of_mem a hb))]

/-- Peeling one index off a filterMap over an initial range. -/
theorem filterMapRangeSucc {β : Type} (f : Nat → Option β) (n : Nat) :
    (List.range (n + 1)).filterMap f
      = (f 0).toList ++ (List.range n).filterMap (fun j => f (j + 1)) := by
  rw [List.range_succ_eq_map, List.filterMap_cons]
  cases hf : f 0 <;>
    simp [List.filterMap_map, Function.comp_def]

/-- The generation loop, started at index i over a list of segments,
produces exactly the clips and errors determined pointwise by the
provider oracle at indices i, i+1, .... -/
theorem genLoop_eq (synth : Nat → SynthResult) (segs : List Segment) :
    ∀ i, genLoop synth i segs
      = ((List.range segs.length).filterMap (fun j => clipOf (synth (i + j))),
         (List.range segs.length).filterMap (fun j => errOf (i + j) (synth (i + j)))) := by
  induction segs with
  | nil => intro i; simp [genLoop]
  | cons s rest ih =>
    intro i
    have hcshift : (List.range rest.length).filterMap
          (fun j => clipOf (synth (i + (j + 1))))
        = (List.range rest.length).filterMap (fun j => clipOf (synth (i + 1 + j))) :=
      filterMapCongr (fun a _ => by rw [Nat.add_comm a 1, ← Nat.add_assoc])
    have heshift : (List.range rest.length).filterMap
          (fun j => errOf (i + (j + 1)) (synth (i + (j + 1))))
        = (List.range rest.length).filterMap
            (fun j => errOf (i + 1 + j) (synth (i + 1 + j))) :=
      filterMapCongr (fun a _ => by rw [Nat.add_comm a 1, ← Nat.add_assoc])
    have hrhs1 : (List.range (s :: rest).length).filterMap
          (fun j => clipOf (synth (i + j)))
        = (clipOf (synth i)).toList
          ++ (List.range rest.length).filterMap (fun j => clipOf (synth (i + 1 + j))) := by
      rw [List.length_cons, filterMapRangeSucc, Nat.add_zero, hcshift]
    have hrhs2 : (List.range (s :: rest).length).filterMap
          (fun j => errOf (i + j) (synth (i + j)))
        = (errOf i (synth i)).toList
          ++ (List.range rest.length).filterMap
              (fun j => errOf (i + 1 + j) (synth (i + 1 + j))) := by
      rw [List.length_cons,
        filterMapRangeSucc (fun j => errOf (i + j) (synth (i + j))),
        Nat.add_zero, heshift]
    rw [hrhs1, hrhs2]
    cases hg : generate_single_segment (synth i) with
    | ok o =>
      cases o with
      | some p =>
        have hco : clipOf (synth i) = some p := by simp [clipOf, hg]
        have heo : errOf i (synth i) = none := by simp [errOf, hg]
        simp only [genLoop, hg, hco, heo, Option.toList_some, Option.toList_none,
          List.nil_append, List.singleton_append]
        rw [ih (i + 1)]
      | none =>
        have hco : clipOf (synth i) = none := by simp [clipOf, hg]
        have heo : errOf i (synth i)
            = some ("Segment " ++ toString (i + 1) ++ ": Generation failed") := by
          simp [errOf, hg]
        simp only [genLoop, hg, hco, heo, Option.toList_some, Option.toList_none,
          List.nil_append, List.singleton_append]
        rw [ih (i + 1)]
    | error m =>
      have hco : clipOf (synth i) = none := by simp [clipOf, hg]
      have heo : errOf i (synth i)
          = some ("Segment " ++ toString (i + 1) ++ ": " ++ m) := by
        simp [errOf, hg]
      simp only [genLoop, hg, hco, heo, Option.toList_some, Option.toList_none,
        List.nil_append, List.singleton_append]
      rw [ih (i + 1)]

/-- Every run of the generation loop accounts for each segment exactly
once: the clip list and the error list lengths sum to the script length. -/
theorem genLoop_length (synth : Nat → SynthResult) (segs : List Segment) :
    ∀ i, (genLoop synth i segs).1.length + (genLoop synth i segs).2.length
      = segs.length := by
  induction segs with
  | nil => intro i; simp [genLoop]
  | cons s rest ih =>
    intro i
    simp only [genLoop, List.length_cons]
    cases hg : generate_single_segment (synth i) with
    | ok o =>
      cases o with
      | some p => simp only [List.length_cons]; rw [← ih (i + 1)]; omega
      | none => simp only [List.length_cons]; rw [← ih (i + 1)]; omega
    | error m => simp only [List.length_cons]; rw [← ih (i + 1)]; omega

/-- A segment that contributes a clip contributes no error, and
conversely. -/
theorem clipOf_isSome_iff_errOf_eq_none (i : Nat) (r : SynthResult) :
    (clipOf r).isSome = true ↔ errOf i r = none := by
  simp only [clipOf, errOf]
  cases hg : generate_single_segment r with
  | ok o => cases o with
    | some p => simp
    | none => simp
  | error m => simp

/-- Shared description of generate_all_segments on the allow path: the
two result lists are the pointwise filterMaps of the per-segment
outcomes, and their lengths sum to the script length. -/
theorem generate_all_segments_eq (synth : Nat → SynthResult)
    (currentCount : Nat) (segs : List Segment)
    (hq : check_generation_limit currentCount segs.length = QuotaDecision.allow) :
    (generate_all_segments synth currentCount segs).1
      = (List.range segs.length).filterMap (fun j => clipOf (synth j))
    ∧ (generate_all_segments synth currentCount segs).2
      = (List.range segs.length).filterMap (fun j => errOf j (synth j))
    ∧ (generate_all_segments synth currentCount segs).1.length
        + (generate_all_segments synth currentCount segs).2.length
      = segs.length := by
  have hunfold : generate_all_segments synth currentCount segs = genLoop synth 0 segs := by
    simp [generate_all_segments, hq]
  have heq := genLoop_eq synth segs 0
  simp only [Nat.zero_add] at heq
  refine ⟨?_, ?_, ?_⟩
  · rw [hunfold, heq]
  · rw [hunfold, heq]
  · rw [hunfold]; exact genLoop_length synth segs 0

/-- Claim C8: whenever the quota check passes, every segment is accounted for
in exactly one of the two result lists of generate_all_segments — the
clip list and the error list are the pointwise filterMaps of the
per-segment outcomes, a segment yields a clip exactly when it yields no
error, and the two lengths sum to the script length. -/
theorem generate_all_segments_accounting (synth : Nat → SynthResult)
    (currentCount : Nat) (segs : List Segment)
    (hq : check_generation_limit currentCount segs.length = QuotaDecision.allow) :
    (generate_all_segments synth currentCount segs).1
      = (List.range segs.length).filterMap (fun j => clipOf (synth j))
    ∧ (generate_all_segments synth currentCount segs).2
      = (List.range segs.length).filterMap (fun j => errOf j (synth j))
    ∧ (∀ j, (clipOf (synth j)).isSome = true ↔ errOf j (synth j) = none)
    ∧ (generate_all_segments synth currentCount segs).1.length
        + (generate_all_segments synth currentCount segs).2.length
      = segs.length := by
  obtain ⟨h1, h2, h3⟩ := generate_all_segments_eq synth currentCount segs hq
  exact ⟨h1, h2, fun j => clipOf_isSome_iff_errOf_eq_none j (synth j), h3⟩

/-- Concrete provider oracle: every call succeeds with an existing path. -/
def sampleSynthOk : Nat → SynthResult := fun _ => .returns "clip.mp3" true

/-- Concrete provider oracle: the call for segment 1 (0-based index 0)
raises, every other call succeeds with an existing path. -/
def sampleSynthFailFirst : Nat → SynthResult := fun i =>
  if i = 0 then .raises "boom" else .returns "clip.mp3" true

/-- A concrete well-formed segment. -/
def sampleSegment : Segment := ⟨"seg1", "hello", some "voice1", "Voice One"⟩

/-- Witness for C8: a one-segment script under an all-success provider,
with quota available, yields lists whose lengths sum to 1. -/
theorem generate_all_segments_accounting_witness :
    check_generation_limit 0 [sampleSegment].length = QuotaDecision.allow
    ∧ (generate_all_segments sampleSynthOk 0 [sampleSegment]).1.length
        + (generate_all_segments sampleSynthOk 0 [sampleSegment]).2.length
      = [sampleSegment].length :=
  ⟨by decide,
   (generate_all_segments_accounting sampleSynthOk 0 [sampleSegment]
      (by decide)).2.2.2⟩

/-- Claim C3: if the quota check passes and exactly the provider call for the
segment at 0-based index k fails to produce a clip while every other
call produces one, generate_all_segments returns the clips of all other
segments in script order (length N - 1) and a single error entry naming
the 1-based position k + 1; later segments are still processed. -/
theorem generate_all_segments_partial_failure (synth : Nat → SynthResult)
    (segs : List Segment) (currentCount k : Nat) (p : Nat → String)
    (hq : check_generation_limit currentCount segs.length = QuotaDecision.allow)
    (hk : k < segs.length)
    (hsucc : ∀ i, i < segs.length → i ≠ k → clipOf (synth i) = some (p i))
    (hfail : clipOf (synth k) = none) :
    (generate_all_segments synth currentCount segs).1
      = ((List.range segs.length).filter (fun i => i != k)).map p
    ∧ (generate_all_segments synth currentCount segs).1.length = segs.length - 1
    ∧ ∃ m, (generate_all_segments synth currentCount segs).2
        = ["Segment " ++ toString (k + 1) ++ ": " ++ m] := by
  obtain ⟨hc, he, hlen⟩ :=
    generate_all_segments_eq synth currentCount segs hq
  have hfilterlen :
      (((List.range segs.length).filter (fun i => i != k)).map p).length
        = segs.length - 1 := by
    rw [List.length_map, ← List.Nodup.erase_eq_filter (List.nodup_range segs.length) k,
      List.length_erase_of_mem (List.mem_range.2 hk), List.length_range]
  have hclips : (generate_all_segments synth currentCount segs).1
      = ((List.range segs.length).filter (fun i => i != k)).map p := by
    rw [hc]
    have key : ∀ l : List Nat, (∀ j ∈ l, j < segs.length) →
        l.filterMap (fun j => clipOf (synth j)) = (l.filter (fun i => i != k)).map p := by
      intro l
      induction l with
      | nil => intro _; rfl
      | cons a t ih =>
        intro hmem
        have ht := ih (fun j hj => hmem j (List.mem_cons_of_mem a hj))
        rw [List.filterMap_cons, List.filter_cons]
        by_cases hak : a = k
        · subst hak
          simp [hfail, ht]
        · have hca : clipOf (synth a) = some (p a) :=
            hsucc a (hmem a (List.mem_cons_self a t)) hak
          have hbne : (a != k) = true := by simpa using hak
          simp [hca, hbne, ht]
    exact key (List.range segs.length) (fun j hj => List.mem_range.1 hj)
  refine ⟨hclips, ?_, ?_⟩
  · rw [hclips]; exact hfilterlen
  · have herrlen : (generate_all_segments synth currentCount segs).2.length = 1 := by
      have h1 : (generate_all_segments synth currentCount segs).1.length
          = segs.length - 1 := by rw [hclips]; exact hfilterlen
      omega
    obtain ⟨e, hel⟩ := List.length_eq_one.1 herrlen
    have hmem : e ∈ (generate_all_segments synth currentCount segs).2 := by
      rw [hel]; exact List.mem_singleton.2 rfl
    rw [he] at hmem
    obtain ⟨j, hjr, hje⟩ := List.mem_filterMap.1 hmem
    by_cases hjk : j = k
    · subst hjk
      have hsplitGF : ("Segment " ++ toString (j + 1) ++ ": Generation failed")
          = "Segment " ++ toString (j + 1) ++ ": " ++ "Generation failed" := by
        have hcolon : (": Generation failed" : String) = ": " ++ "Generation failed" := rfl
        rw [hcolon, ← String.append_assoc]
      have : ∃ m, errOf j (synth j) = some ("Segment " ++ toString (j + 1) ++ ": " ++ m) := by
        simp only [clipOf] at hfail
        simp only [errOf]
        cases hg : generate_single_segment (synth j) with
        | ok o =>
          cases o with
          | some q => rw [hg] at hfail; simp at hfail
          | none => exact ⟨"Generation failed", by rw [hsplitGF]⟩
        | error m => exact ⟨m, rfl⟩
      obtain ⟨m, hm⟩ := this
      rw [hm] at hje
      refine ⟨m, ?_⟩
      rw [hel]
      rw [show e = "Segment " ++ toString (j + 1) ++ ": " ++ m from
        (Option.some.inj hje).symm]
    · have := hsucc j (List.mem_range.1 hjr) hjk
      have hnone : errOf j (synth j) = none :=
        (clipOf_isSome_iff_errOf_eq_none j (synth j)).1 (by rw [this]; rfl)
      rw [hnone] at hje
      cases hje

/-- Witness for C3: a two-segment script where the provider raises on the
first segment and succeeds on the second yields exactly one clip. -/
theorem generate_all_segments_partial_failure_witness :
    check_generation_limit 0 [sampleSegment, sampleSegment].length
      = QuotaDecision.allow
    ∧ (generate_all_segments sampleSynthFailFirst 0
        [sampleSegment, sampleSegment]).1.length
      = [sampleSegment, sampleSegment].length - 1 :=
  ⟨by decide,
   (generate_all_segments_partial_failure sampleSynthFailFirst
      [sampleSegment, sampleSegment] 0 0 (fun _ => "clip.mp3")
      (by decide) (by decide)
      (by
        intro i hi hne
        have hi1 : i = 1 := by
          simp only [List.length_cons, List.length_nil] at hi
          omega
        subst hi1
        rfl)
      (by rfl)).2.1⟩

/-! ### Theorems about merge_audio_files (claims C4 and C10) -/

/-- Once the accumulator holds a clip, the rest of the fold appends each
remaining clip behind a 300ms silence. -/
theorem mergeFold_some (load : String → AudioClip) (ps : List String) :
    ∀ c, mergeFold load (some c) ps
      = some (c ++ (ps.map (fun q => silence300 ++ load q)).flatten) := by
  induction ps with
  | nil => intro c; simp [mergeFold]
  | cons q qs ih =>
    intro c
    simp only [mergeFold, List.map_cons, List.flatten_cons]
    rw [ih (c ++ silence300 ++ load q)]
    simp [List.append_assoc]

/-- Interspersing silence and flattening equals the head clip followed by
silence-prefixed copies of the tail clips. -/
theorem intersperse_flatten (a : AudioClip) (ls : List AudioClip) :
    ((a :: ls).intersperse silence300).flatten
      = a ++ (ls.map (fun b => silence300 ++ b)).flatten := by
  induction ls generalizing a with
  | nil => simp [List.intersperse]
  | cons b t ih =>
    have hcc : List.intersperse silence300 (a :: b :: t)
        = a :: silence300 :: List.intersperse silence300 (b :: t) := by
      simp [List.intersperse]
    rw [hcc]
    simp only [List.flatten_cons, List.map_cons]
    rw [ih b]
    simp [List.append_assoc]

/-- The flattened silence-prefixed tail has length 300 per gap plus the
clip lengths. -/
theorem flatten_silence_length (load : String → AudioClip) (qs : List String) :
    ((qs.map (fun q => silence300 ++ load q)).flatten).length
      = qs.length * 300 + ((qs.map (fun q => (load q).length)).sum) := by
  induction qs with
  | nil => simp
  | cons q t ih =>
    simp only [List.map_cons, List.flatten_cons, List.length_append]
    rw [ih]
    have h300 : silence300.length = 300 := List.length_replicate 300 0
    rw [h300]
    simp only [List.length_cons, List.sum_cons]
    ring

/-- Claim C4: on a non-empty clip list, merge_audio_files produces exactly the
first clip followed by alternating 300ms silences and the later clips in
input order (no leading or trailing silence), and the duration of that
stream is the sum of the clip durations plus 300ms per gap. -/
theorem merge_audio_files_spec (load : String → AudioClip) (q : String)
    (qs : List String) :
    merge_audio_files load (q :: qs)
      = some (((q :: qs).map load).intersperse silence300).flatten
    ∧ ((((q :: qs).map load).intersperse silence300).flatten).length
      = ((q :: qs).map (fun r => (load r).length)).sum + qs.length * 300 := by
  have hfold : merge_audio_files load (q :: qs)
      = some (load q ++ (qs.map (fun r => silence300 ++ load r)).flatten) := by
    simp only [merge_audio_files, mergeFold]
    exact mergeFold_some load qs (load q)
  have hint : (((q :: qs).map load).intersperse silence300).flatten
      = load q ++ (qs.map (fun r => silence300 ++ load r)).flatten := by
    rw [List.map_cons]
    rw [intersperse_flatten (load q) (qs.map load)]
    rw [List.map_map]
    rfl
  constructor
  · rw [hfold, hint]
  · rw [hint]
    simp only [List.length_append, flatten_silence_length, List.map_cons,
      List.sum_cons]
    ring

/-- Claim C10: merging the empty list leaves the accumulator as None (the
export line then raises), merging any non-empty list yields a clip, and
the Generate and Merge handler never invokes the merge on an empty
generated list (it stops with the no-files error first). -/
theorem merge_audio_files_empty_guard :
    (∀ load : String → AudioClip, merge_audio_files load [] = none)
    ∧ (∀ (load : String → AudioClip) (q : String) (qs : List String),
        (merge_audio_files load (q :: qs)).isSome = true)
    ∧ (∀ (pydubAvailable : Bool) (mergeResult zipResult : Except String String),
        handle_generate_merge [] pydubAvailable mergeResult zipResult
          = (MergeOutcome.noFiles, false)) := by
  refine ⟨fun load => rfl, ?_, fun pydubAvailable mergeResult zipResult => rfl⟩
  intro load q qs
  have hfold : merge_audio_files load (q :: qs)
      = some (load q ++ (qs.map (fun r => silence300 ++ load r)).flatten) := by
    simp only [merge_audio_files, mergeFold]
    exact mergeFold_some load qs (load q)
  rw [hfold]
  rfl

/-! ### Theorems about the merge-to-archive fallback (claim C6) -/

/-- Claim C6: on a non-empty generated list, whenever the merge facility is
unavailable or the merge attempt errors, the handler's outcome is the
archive fallback's outcome — the merge error is never propagated, a
successful archive is reported as the result, and only a failure of the
archive itself is reported as fatal. -/
theorem handle_generate_merge_fallback (generated : List String)
    (pydubAvailable : Bool) (mergeResult zipResult : Except String String)
    (hne : generated ≠ [])
    (hfail : pydubAvailable = false ∨ ∃ m, mergeResult = Except.error m) :
    (handle_generate_merge generated pydubAvailable mergeResult zipResult).1
      = zipFallback zipResult
    ∧ (∀ p, zipResult = Except.ok p →
        (handle_generate_merge generated pydubAvailable mergeResult zipResult).1
          = MergeOutcome.zipped p)
    ∧ (∀ m, zipResult = Except.error m →
        (handle_generate_merge generated pydubAvailable mergeResult zipResult).1
          = MergeOutcome.zipFailed m) := by
  have hempty : generated.isEmpty = false := by
    cases generated with
    | nil => exact absurd rfl hne
    | cons a t => rfl
  have hmain : (handle_generate_merge generated pydubAvailable mergeResult zipResult).1
      = zipFallback zipResult := by
    rcases hfail with hpy | ⟨m, hm⟩
    · subst hpy
      simp [handle_generate_merge, hempty]
    · subst hm
      cases pydubAvailable <;> simp [handle_generate_merge, hempty]
  refine ⟨hmain, ?_, ?_⟩
  · intro p hp; subst hp; rw [hmain]; rfl
  · intro m hm; subst hm; rw [hmain]; rfl

/-- Witness for C6: with one generated clip, the merge facility absent
and a successful archive attempt, the handler reports the ZIP. -/
theorem handle_generate_merge_fallback_witness :
    (handle_generate_merge ["clip.mp3"] false (Except.ok "merged.mp3")
        (Except.ok "segments.zip")).1
      = zipFallback (Except.ok "segments.zip") :=
  (handle_generate_merge_fallback ["clip.mp3"] false (Except.ok "merged.mp3")
      (Except.ok "segments.zip") (by decide) (Or.inl rfl)).1

/-! ### Theorems about create_zip_archive (claim C7) -/

/-- The suffix after the last slash contains no slash. -/
theorem basenameChars_no_slash : ∀ l : List Char, ('/') ∉ basenameChars l := by
  intro l
  induction l with
  | nil => simp [basenameChars]
  | cons c rest ih =>
    simp only [basenameChars]
    by_cases hr : ('/') ∈ rest
    · simpa [hr] using ih
    · by_cases hc : c = '/'
      · simp [hr, hc]
      · simp only [hr, if_false, hc, if_false]
        intro hmem
        rcases List.mem_cons.1 hmem with h | h
        · exact hc h.symm
        · exact hr h

/-- Claim C7: the archive holds exactly one entry per clip path, the entries
are the clips' basenames in order, and no entry contains a path
separator. -/
theorem create_zip_archive_spec (file_paths : List String) :
    (create_zip_archive file_paths).length = file_paths.length
    ∧ create_zip_archive file_paths = file_paths.map basename
    ∧ ∀ e ∈ create_zip_archive file_paths, ('/') ∉ e.data := by
  refine ⟨by simp [create_zip_archive], rfl, ?_⟩
  intro e he
  obtain ⟨q, _, hq⟩ := List.mem_map.1 he
  rw [← hq]
  exact basenameChars_no_slash q.data

/-! ### Theorems about handle_voice_cloning (claims C5 and C9) -/

/-- Claim C5: when the quota admits the clone, the sample is saved, the
provider returns a genuine new voice id, and persisting the VoiceRecord
fails, handle_voice_cloning calls the provider-side delete exactly once
with that id and reports failure. -/
theorem handle_voice_cloning_compensation (voiceCount : Nat)
    (providerReturn : String)
    (hq : voiceCount < MAX_VOICES_PER_USER)
    (hp1 : providerReturn ≠ "")
    (hp2 : providerReturn ≠ "Failed to create voice") :
    (handle_voice_cloning voiceCount true providerReturn false).deleteCalls
      = [providerReturn]
    ∧ (handle_voice_cloning voiceCount true providerReturn false).result = false
    ∧ (handle_voice_cloning voiceCount true providerReturn false).providerCalls
      = 1 := by
  have hnq : ¬ (voiceCount ≥ MAX_VOICES_PER_USER) := by omega
  simp [handle_voice_cloning, hnq, hp1, hp2]

/-- Witness for C5: voice count 0 and provider id voice123 with a failed
database save produce exactly one compensating delete of voice123. -/
theorem handle_voice_cloning_compensation_witness :
    0 < MAX_VOICES_PER_USER
    ∧ (handle_voice_cloning 0 true "voice123" false).deleteCalls = ["voice123"] :=
  ⟨by decide,
   (handle_voice_cloning_compensation 0 "voice123" (by decide) (by decide)
      (by decide)).1⟩

/-- Claim C9: a user at or above the voice cap is denied before any side
effect: the clone reports failure with no sample saved, no provider
call, and no delete call. -/
theorem handle_voice_cloning_quota_denied (voiceCount : Nat)
    (fileSaveOk : Bool) (providerReturn : String) (dbSaveOk : Bool)
    (hq : MAX_VOICES_PER_USER ≤ voiceCount) :
    (handle_voice_cloning voiceCount fileSaveOk providerReturn dbSaveOk).result
      = false
    ∧ (handle_voice_cloning voiceCount fileSaveOk providerReturn dbSaveOk).sampleSaved
      = false
    ∧ (handle_voice_cloning voiceCount fileSaveOk providerReturn dbSaveOk).providerCalls
      = 0
    ∧ (handle_voice_cloning voiceCount fileSaveOk providerReturn dbSaveOk).deleteCalls
      = [] := by
  have hge : voiceCount ≥ MAX_VOICES_PER_USER := hq
  simp [handle_voice_cloning, hge]

/-- Witness for C9: a user with one existing voice is denied with no
provider call and no sample saved. -/
theorem handle_voice_cloning_quota_denied_witness :
    MAX_VOICES_PER_USER ≤ 1
    ∧ (handle_voice_cloning 1 true "voice123" true).providerCalls = 0 :=
  ⟨by decide,
   (handle_voice_cloning_quota_denied 1 true "voice123" true (by decide)).2.2.1⟩

end ProjectZero
